import Mathlib

/-!
Shallow embedding of the crawl-engine core of the scrapers repository
(independent.py, rekhta-data.py, nature-articles.py, wiki-how.py,
bbc-articles.py): frontier management, retry/backoff, durable URL
tracking, the download cap, and checkpoint recording.

Modelling choices, uniform across the file:
- Network fetches are modelled by an outcome oracle passed to each worker
  (one outcome per attempt or per URL); wall-clock sleeping is modelled by
  recording the requested sleep lengths in order.
- Durable newline-delimited text logs are modelled line-based, as lists of
  strings: writing a URL appends one line, which is faithful for URLs that
  contain no newline character.  Directories are finite sets of file names.
- Python sets whose only use is membership and counting are modelled as
  Finset String; Python sets that get enumerated (iterated or sorted) are
  modelled as lists enumerating the set, and determinism is stated as
  invariance under permutation of the enumeration.
- Python string helpers (strip, split) are re-implemented structurally on
  the character list of the string so that all definitions evaluate.
-/

/-- Python str.strip(): remove leading and trailing whitespace. -/
def pyStrip (s : String) : String :=
  ⟨((s.data.dropWhile Char.isWhitespace).reverse.dropWhile Char.isWhitespace).reverse⟩

/-- Python str.split(c) on a character list: split into the (possibly
empty) groups between occurrences of c. -/
def splitOnChar (c : Char) : List Char → List (List Char)
  | [] => [[]]
  | a :: rest =>
    let r := splitOnChar c rest
    if a = c then [] :: r
    else
      match r with
      | [] => [[a]]
      | g :: gs => (a :: g) :: gs

/-- Lexicographic order on strings via their character lists; this is the
order Python sorted() uses on the URL strings of the scrapers. -/
def urlLe (a b : String) : Prop := a.data ≤ b.data

instance : DecidableRel urlLe := fun a b => inferInstanceAs (Decidable (a.data ≤ b.data))

instance : IsTrans String urlLe := ⟨fun _ _ _ h1 h2 => le_trans h1 h2⟩

instance : IsAntisymm String urlLe :=
  ⟨fun a b h1 h2 => by cases a; cases b; exact congrArg String.mk (le_antisymm h1 h2)⟩

instance : IsTotal String urlLe := ⟨fun a b => le_total a.data b.data⟩

instance : IsRefl String urlLe := ⟨fun a => le_refl a.data⟩

namespace Independent

/-- Configuration record of independent.py (the fields the crawl loop and
retry logic read; paths and logging settings are omitted). -/
structure Config where
  max_downloads : ℕ
  retry_count : ℕ
  retry_delay : ℕ
  batch_size : ℕ
  deriving Repr, DecidableEq

/-- Outcome of one fetch attempt, combining the network call and the
is_valid_article check of independent.py: ok means the fetch succeeded and
validation passed, invalidContent means the fetch succeeded but validation
failed, transportError means the fetch raised. -/
inductive FetchOutcome where
  | transportError
  | invalidContent
  | ok
  deriving Repr, DecidableEq

/-- Mutable state threaded through download_article: the in-memory tracked
and failed sets, the set of artifact file names present in the download
directory, and the two append-only logs (track file and error file) as
lists of lines.  The error file entry also carries a timestamp and reason
in the source; only the URL column is modelled. -/
structure DLState where
  tracked : Finset String
  failed : Finset String
  files : Finset String
  trackFile : List String
  errorFile : List String
  deriving DecidableEq

/-- Branch taken by one download_article call. -/
inductive DLOutcome where
  | skippedTracked
  | skippedExists
  | success
  | failedInvalid
  | failedTransport
  | noAttempt
  deriving Repr, DecidableEq

/-- Result of one download_article call: the new state, the number of
network fetches performed, the number of artifact writes performed, the
retry sleeps requested (in seconds, in order), and the branch taken. -/
structure DLResult where
  state : DLState
  fetches : ℕ
  writes : ℕ
  sleeps : List ℕ
  outcome : DLOutcome
  deriving DecidableEq

/-- Article id of a URL in independent.py: url.rstrip(slash).split(slash)[-1]. -/
def articleId (url : String) : String :=
  ⟨(splitOnChar '/' ((url.data.reverse.dropWhile (· = '/')).reverse)).getLastD []⟩

/-- Artifact file name written for a URL (articleId plus .md). -/
def articleFile (url : String) : String := articleId url ++ ".md"

/-- The retry loop of download_article (independent.py lines 223 to 268).
The loop variable attempt runs from 1 to retry_count; on a transport error
with attempt < retry_count it sleeps retry_delay * attempt before the next
attempt, on invalid content it sleeps retry_delay, and on the last attempt
the URL is appended to the error file and to the failed set.  fuel counts
the remaining loop iterations (initially retry_count); the fuel-0 base
case is the fall-through return after the loop. -/
def try_attempts (cfg : Config) (fetch : ℕ → FetchOutcome) (url : String) :
    ℕ → ℕ → DLState → DLResult
  | _, 0, s => ⟨s, 0, 0, [], .noAttempt⟩
  | attempt, fuel + 1, s =>
    match fetch attempt with
    | .ok =>
        ⟨{ s with files := insert (articleFile url) s.files,
                  trackFile := s.trackFile ++ [url],
                  tracked := insert url s.tracked }, 1, 1, [], .success⟩
    | .invalidContent =>
        if attempt < cfg.retry_count then
          let r := try_attempts cfg fetch url (attempt + 1) fuel s
          ⟨r.state, r.fetches + 1, r.writes, cfg.retry_delay :: r.sleeps, r.outcome⟩
        else
          ⟨{ s with errorFile := s.errorFile ++ [url], failed := insert url s.failed },
            1, 0, [], .failedInvalid⟩
    | .transportError =>
        if attempt < cfg.retry_count then
          let r := try_attempts cfg fetch url (attempt + 1) fuel s
          ⟨r.state, r.fetches + 1, r.writes, cfg.retry_delay * attempt :: r.sleeps, r.outcome⟩
        else
          ⟨{ s with errorFile := s.errorFile ++ [url], failed := insert url s.failed },
            1, 0, [], .failedTransport⟩

/-- download_article of independent.py: return immediately when the URL is
already tracked, mark it tracked without fetching when its artifact file
already exists, otherwise run the retry loop.  The jittered rate-limit
sleep before the loop is not part of the retry sleeps recorded here. -/
def download_article (cfg : Config) (fetch : ℕ → FetchOutcome) (url : String)
    (s : DLState) : DLResult :=
  if url ∈ s.tracked then ⟨s, 0, 0, [], .skippedTracked⟩
  else if articleFile url ∈ s.files then
    ⟨{ s with trackFile := s.trackFile ++ [url], tracked := insert url s.tracked },
      0, 0, [], .skippedExists⟩
  else try_attempts cfg fetch url 1 cfg.retry_count s

/-- Read errors a file read can raise (independent.py catches every
exception in its loaders). -/
inductive ReadError where
  | notFound
  | ioError
  deriving Repr, DecidableEq

/-- Set of URLs reconstructed from the lines of the tracker log:
set(line.strip() for line in tf if line.strip()). -/
def load_tracked_lines (lines : List String) : Finset String :=
  ((lines.map pyStrip).filter (· ≠ "")).toFinset

/-- load_tracked_urls of independent.py: any read error is caught, logged
and turned into the empty set. -/
def load_tracked_urls (r : Except ReadError (List String)) : Finset String :=
  match r with
  | .ok lines => load_tracked_lines lines
  | .error _ => ∅

/-- add_to_tracked of independent.py: append one line holding the URL to
the tracker log. -/
def add_to_tracked (log : List String) (url : String) : List String :=
  log ++ [url]

/-- The stripped non-blank lines of a candidate file, in file order. -/
def cleanLines (lines : List String) : List String :=
  (lines.map pyStrip).filter (· ≠ "")

/-- Loop of load_candidate_urls: walk the lines keeping a seen-set, append
each stripped non-blank URL the first time it appears. -/
def loadCandAux : List String → Finset String → List String
  | [], _ => []
  | line :: rest, seen =>
    let url := pyStrip line
    if url ≠ "" ∧ url ∉ seen then url :: loadCandAux rest (insert url seen)
    else loadCandAux rest seen

/-- load_candidate_urls of independent.py: deduplicate the candidate file
while preserving first-seen order. -/
def load_candidate_urls (lines : List String) : List String :=
  loadCandAux lines ∅

/-- Reference form of first-seen deduplication: keep the head, drop its
later duplicates, recurse. -/
def firstSeenDedup : List String → List String
  | [] => []
  | a :: l => a :: firstSeenDedup (l.filter (· ≠ a))
termination_by l => l.length
decreasing_by
  simp only [List.length_cons]
  exact Nat.lt_succ_of_le (List.length_filter_le _ _)

/-- Seen-set form of first-seen deduplication over an already cleaned
line list; bridges loadCandAux and firstSeenDedup. -/
def dedupSeen : List String → Finset String → List String
  | [], _ => []
  | a :: l, seen =>
    if a ∈ seen then dedupSeen l seen else a :: dedupSeen l (insert a seen)

/-- update_urls_file of independent.py: load the existing URL file, drop
the discovered URLs already present, append the remaining ones in sorted
order.  new_urls enumerates the discovered set (a Python set in the
source); the file is the list of its lines. -/
def update_urls_file (new_urls : List String) (fileLines : List String) : List String :=
  let existing := load_tracked_lines fileLines
  let urls_to_add := (new_urls.filter (· ∉ existing)).dedup
  if urls_to_add = [] then fileLines
  else fileLines ++ List.insertionSort urlLe urls_to_add

/-- One step of process_batch: skip a URL already tracked or failed
(independent.py lines 275 to 276), otherwise dispatch download_article;
the second component collects the URLs for which at least one network
fetch was performed. -/
def pbStep (cfg : Config) (fetchOf : String → ℕ → FetchOutcome)
    (acc : DLState × List String) (url : String) : DLState × List String :=
  if url ∈ acc.1.tracked ∨ url ∈ acc.1.failed then acc
  else
    let r := download_article cfg (fetchOf url) url acc.1
    (r.state, if r.fetches = 0 then acc.2 else acc.2 ++ [url])

/-- process_batch of independent.py: dispatch download_article for every
URL of the batch not already tracked or failed, threading the state.  The
bounded-concurrency gather is sequentialised. -/
def process_batch (cfg : Config) (fetchOf : String → ℕ → FetchOutcome)
    (urls : List String) (s : DLState) : DLState × List String :=
  urls.foldl (pbStep cfg fetchOf) (s, [])

/-- Helper of toBatches: walk the list accumulating the current chunk and
emit it whenever it reaches n elements. -/
def chunksGo (n : ℕ) : List String → List String → List (List String)
  | [], cur => if cur = [] then [] else [cur]
  | a :: rest, cur =>
    let cur2 := cur ++ [a]
    if n ≤ cur2.length then cur2 :: chunksGo n rest []
    else chunksGo n rest cur2

/-- Batching of the candidate list: range(0, len(candidates), batch_size)
with slices candidates[i : i + batch_size]. -/
def toBatches (n : ℕ) (l : List String) : List (List String) :=
  if n = 0 then [] else chunksGo n l []

/-- The batch loop of main in independent.py (lines 342 to 353): before
each batch compare the completed count (the size of the tracked set)
against max_downloads and stop when the cap is reached, otherwise process
the batch.  Link discovery only grows the candidate file, so a run is
determined by the resulting batch list, which this function takes as
given.  The accumulated second component collects every URL fetched. -/
def crawl_main (cfg : Config) (fetchOf : String → ℕ → FetchOutcome) :
    List (List String) → DLState → List String → DLState × List String
  | [], s, fetched => (s, fetched)
  | b :: bs, s, fetched =>
    if cfg.max_downloads ≤ s.tracked.card then (s, fetched)
    else
      let r := process_batch cfg fetchOf b s
      crawl_main cfg fetchOf bs r.1 (fetched ++ r.2)

end Independent

namespace Rekhta

/-- Outcome of one crawler.arun call in rekhta-data.py: the call raises,
or succeeds with or without markdown content. -/
inductive RekFetch where
  | raises
  | ok (hasMarkdown : Bool)
  deriving Repr, DecidableEq

/-- State touched by download_article of rekhta-data.py: the in-memory
tracked set, the tracker log lines, and the artifact files present. -/
structure RekState where
  tracked : Finset String
  trackFile : List String
  files : Finset String
  deriving DecidableEq

/-- Result of one download_article call in rekhta-data.py. -/
structure RekResult where
  state : RekState
  sleeps : List ℕ
  success : Bool
  deriving DecidableEq

/-- Artifact file name in rekhta-data.py:
os.path.basename(url).split(questionmark)[0] plus .md. -/
def rekName (url : String) : String :=
  ⟨(splitOnChar '?' ((splitOnChar '/' url.data).getLastD [])).headD []⟩ ++ ".md"

/-- The retry loop of download_article in rekhta-data.py (lines 101 to
127): attempt runs from 0 to retry_attempts - 1; a fetch success with no
markdown returns False at once (no retry); a success with markdown writes
the artifact, appends the tracker log and returns True; an exception
sleeps 2 ^ attempt when attempt < retry_attempts - 1, else returns False.
fuel counts the remaining iterations (initially retry_attempts). -/
def rek_try (ra : ℕ) (fetch : ℕ → RekFetch) (url : String) :
    ℕ → ℕ → RekState → RekResult
  | _, 0, s => ⟨s, [], false⟩
  | attempt, fuel + 1, s =>
    match fetch attempt with
    | .ok md =>
      if md then
        ⟨{ s with files := insert (rekName url) s.files,
                  trackFile := s.trackFile ++ [url],
                  tracked := insert url s.tracked }, [], true⟩
      else ⟨s, [], false⟩
    | .raises =>
      if attempt < ra - 1 then
        let r := rek_try ra fetch url (attempt + 1) fuel s
        ⟨r.state, 2 ^ attempt :: r.sleeps, r.success⟩
      else ⟨s, [], false⟩

/-- download_article of rekhta-data.py. -/
def download_article (ra : ℕ) (fetch : ℕ → RekFetch) (url : String)
    (s : RekState) : RekResult :=
  rek_try ra fetch url 0 ra s

/-- Read errors of rekhta load_tracked_urls, which handles
FileNotFoundError and any other exception separately (both return the
empty set). -/
inductive RekReadError where
  | fileNotFound
  | other
  deriving Repr, DecidableEq

/-- load_tracked_urls of rekhta-data.py: the set of stripped non-blank
lines; a missing file or any other read error yields the empty set. -/
def load_tracked_urls (r : Except RekReadError (List String)) : Finset String :=
  match r with
  | .ok lines => ((lines.map pyStrip).filter (· ≠ "")).toFinset
  | .error _ => ∅

end Rekhta

namespace Nature

/-- Outcome of one crawler.arun call in nature-articles.py: the call
raises, or succeeds with markdown present or absent (None). -/
inductive NatFetch where
  | raises
  | ok (hasMarkdown : Bool)
  deriving Repr, DecidableEq

/-- State touched by download_article of nature-articles.py. -/
structure NatState where
  tracked : Finset String
  trackFile : List String
  files : Finset String
  deriving DecidableEq

/-- Artifact file name in nature-articles.py:
urlparse(url).path.strip(slash).replace(slash, underscore) plus .md;
modelled for URLs without query or fragment by dropping the scheme and
host. -/
def natSlug (url : String) : String :=
  let afterScheme :=
    if url.data.take 8 = "https://".data then url.data.drop 8
    else if url.data.take 7 = "http://".data then url.data.drop 7
    else url.data
  let path := (splitOnChar '/' afterScheme).drop 1
  ⟨(List.intercalate ['_'] (path.filter (· ≠ [])))⟩ ++ ".md"

/-- download_article of nature-articles.py (lines 67 to 82): on a fetch
exception nothing happens; on a fetch success the artifact is written only
when markdown is not None, but the URL is appended to the tracker log and
added to the tracked set in every success case.  The second component is
the number of artifact writes performed. -/
def download_article (fetch : NatFetch) (url : String) (s : NatState) :
    NatState × ℕ :=
  match fetch with
  | .raises => (s, 0)
  | .ok md =>
    ({ tracked := insert url s.tracked,
       trackFile := s.trackFile ++ [url],
       files := if md then insert (natSlug url) s.files else s.files },
      if md then 1 else 0)

end Nature

namespace WikiHow

/-- The batch-popping loop of crawl_articles in wiki-how.py (lines 62 to
66): pop from the head of the queue until the batch holds BATCH_SIZE URLs
or the queue is empty, dropping URLs already tracked.  Returns the batch
and the remaining queue. -/
def takeBatch (tracked : Finset String) (batchSize : ℕ) :
    List String → List String → List String × List String
  | [], batch => (batch, [])
  | u :: rest, batch =>
    if batchSize ≤ batch.length then (batch, u :: rest)
    else if u ∈ tracked then takeBatch tracked batchSize rest batch
    else takeBatch tracked batchSize rest (batch ++ [u])

/-- The per-URL download loop over one batch in wiki-how.py (lines 70 to
85): before each URL compare total_downloaded against MAX_DOWNLOADS and
break when reached; otherwise fetch, and on success (ok url) write the
artifact, add the URL to the tracked set, append the tracker log, and
increment the count; on an exception nothing is recorded. -/
def processBatch (maxDownloads : ℕ) (ok : String → Bool) :
    List String → Finset String → ℕ → Finset String × ℕ
  | [], tracked, total => (tracked, total)
  | u :: rest, tracked, total =>
    if maxDownloads ≤ total then (tracked, total)
    else if ok u then processBatch maxDownloads ok rest (insert u tracked) (total + 1)
    else processBatch maxDownloads ok rest tracked total

/-- One discovered link of wiki-how.py being merged into the accumulating
new_links set: kept only when neither tracked nor seen nor already
accumulated. -/
def addLink (tracked seen : Finset String) (acc : List String) (d : String) :
    List String :=
  if d ∉ tracked ∧ d ∉ seen ∧ d ∉ acc then acc ++ [d] else acc

/-- The link-discovery step over one batch in wiki-how.py (lines 89 to
92): accumulate, per URL of the batch, the discovered links that are
neither tracked nor seen, without duplicates.  disc enumerates the set
extract_article_links returns for each URL. -/
def newLinks (disc : String → List String) (batch : List String)
    (tracked seen : Finset String) : List String :=
  batch.foldl (fun acc u => (disc u).foldl (addLink tracked seen) acc) []

/-- Crawl state of wiki-how.py: tracked set, frontier queue, seen set and
the session download count. -/
structure WHState where
  tracked : Finset String
  queue : List String
  seen : Finset String
  total : ℕ
  deriving DecidableEq

/-- The main crawl loop of wiki-how.py (lines 61 to 95): while the queue
is non-empty and the count is below MAX_DOWNLOADS, pop a batch, download
it URL by URL (with the per-URL cap check), then extend the queue with the
sorted new links and grow the seen set.  fuel bounds the number of loop
iterations. -/
def crawl (maxDownloads batchSize : ℕ) (ok : String → Bool)
    (disc : String → List String) : ℕ → WHState → WHState
  | 0, s => s
  | fuel + 1, s =>
    if s.queue = [] ∨ maxDownloads ≤ s.total then s
    else
      let bq := takeBatch s.tracked batchSize s.queue []
      let dt := processBatch maxDownloads ok bq.1 s.tracked s.total
      let links := newLinks disc bq.1 dt.1 s.seen
      crawl maxDownloads batchSize ok disc fuel
        ⟨dt.1, bq.2 ++ List.insertionSort urlLe links,
          s.seen ∪ links.toFinset, dt.2⟩

end WikiHow

namespace BBC

/-- Derived statistics written by finalize_progress: the success rate (a
percentage, kept as an exact rational; the source formats it to two
decimals), the total processed count, and the runtime in seconds. -/
structure Stats where
  success_rate : ℚ
  total_processed : ℕ
  runtime_seconds : ℤ
  deriving DecidableEq

/-- The progress checkpoint record of bbc-articles.py (progress.json). -/
structure Progress where
  started_at : ℕ
  ended_at : Option ℕ
  total_articles : ℕ
  completed_articles : ℕ
  failed_articles : ℕ
  completed_urls : List String
  failed_urls : List String
  status : String
  last_updated : ℕ
  statistics : Option Stats
  deriving DecidableEq

/-- On-disk state of the checkpoint file: absent, unparseable, or a valid
record. -/
inductive CheckpointFile where
  | missing
  | corrupt
  | valid (p : Progress)
  deriving DecidableEq

/-- Reading the checkpoint file: json.load raises on a missing or
corrupted file. -/
def read_checkpoint : CheckpointFile → Except Unit Progress
  | .missing => .error ()
  | .corrupt => .error ()
  | .valid p => .ok p

/-- initialize_progress_file of bbc-articles.py: the fresh default record
(status running, zero counters). -/
def initialize_progress_file (now : ℕ) : Progress :=
  { started_at := now, ended_at := none, total_articles := 0,
    completed_articles := 0, failed_articles := 0, completed_urls := [],
    failed_urls := [], status := "running", last_updated := now,
    statistics := none }

/-- update_progress of bbc-articles.py (lines 565 to 592): read the
checkpoint; on a parse or not-found error reinitialize it to the fresh
default and re-read; then apply the completed and failed deltas and write
the record back.  The whole body runs under the progress lock. -/
def update_progress (file : CheckpointFile) (now : ℕ)
    (completed_url failed_url : Option String) : CheckpointFile :=
  let p :=
    match read_checkpoint file with
    | .ok p => p
    | .error _ => initialize_progress_file now
  let p :=
    match completed_url with
    | some u =>
      { p with completed_articles := p.completed_articles + 1,
               completed_urls := p.completed_urls ++ [u] }
    | none => p
  let p :=
    match failed_url with
    | some u =>
      { p with failed_articles := p.failed_articles + 1,
               failed_urls := p.failed_urls ++ [u] }
    | none => p
  .valid { p with last_updated := now }

/-- Success rate computed by finalize_progress:
completed / total * 100 when anything was processed, else 0. -/
def successRate (completed total : ℕ) : ℚ :=
  if 0 < total then (completed : ℚ) / (total : ℚ) * 100 else 0

/-- finalize_progress of bbc-articles.py (lines 594 to 628): read the
checkpoint (reinitializing a corrupted or missing file), stamp the end
time and terminal status, compute the derived statistics and write the
record back. -/
def finalize_progress (file : CheckpointFile) (now : ℕ) (status : String) :
    CheckpointFile :=
  let p :=
    match read_checkpoint file with
    | .ok p => p
    | .error _ => initialize_progress_file now
  let total := p.completed_articles + p.failed_articles
  .valid
    { p with
      ended_at := some now,
      status := status,
      last_updated := now,
      statistics := some
        { success_rate := successRate p.completed_articles total,
          total_processed := total,
          runtime_seconds := (now : ℤ) - (p.started_at : ℤ) } }

/-- Observable outcome of one run_batch call in run_scraper: the batch
completes with the given success and failure counts, or a
KeyboardInterrupt or another exception escapes it.  The executor context
manager waits for in-flight workers before the exception propagates, so a
batch is atomic at this granularity. -/
inductive BatchEvent where
  | ok (succ fail : ℕ)
  | interrupted
  | errored
  deriving Repr, DecidableEq

/-- The batch loop of run_scraper (bbc-articles.py lines 840 to 863 and
880): process batches in order accumulating the totals; a
KeyboardInterrupt stops the loop with terminal status interrupted, any
other exception with status error, and normal completion ends with status
completed.  Returns the terminal status and the totals. -/
def run_batches : List BatchEvent → ℕ → ℕ → String × ℕ × ℕ
  | [], succ, fail => ("completed", succ, fail)
  | .ok s f :: rest, succ, fail => run_batches rest (succ + s) (fail + f)
  | .interrupted :: _, succ, fail => ("interrupted", succ, fail)
  | .errored :: _, succ, fail => ("error", succ, fail)

/-- Result of run_scraper: every finalize_progress call it makes (status
arguments in order), the final checkpoint file, and the returned totals. -/
structure RunResult where
  finalized : List String
  checkpoint : CheckpointFile
  totals : ℕ × ℕ
  deriving DecidableEq

/-- run_scraper of bbc-articles.py (lines 790 to 882): with no article
URLs, finalize with status failed and return zero totals; otherwise run
the batch loop and finalize exactly once with its terminal status. -/
def run_scraper (article_urls : List String) (events : List BatchEvent)
    (file : CheckpointFile) (now : ℕ) : RunResult :=
  if article_urls = [] then
    ⟨["failed"], finalize_progress file now "failed", (0, 0)⟩
  else
    let r := run_batches events 0 0
    ⟨[r.1], finalize_progress file now r.1, r.2⟩

end BBC


/-! ## Helper lemmas -/

theorem pairwise_lt_map_range' {f : ℕ → ℕ} (hf : StrictMono f) (s n : ℕ) :
    List.Pairwise (· < ·) ((List.range' s n).map f) := by
  have h1 : List.Pairwise (· < ·) (List.range' s n) := by
    rw [List.range'_eq_map_range]
    exact (List.pairwise_lt_range n).map _ (fun a b h => by omega)
  exact h1.map _ (fun a b h => hf h)

namespace Independent

theorem try_attempts_allErr_sleeps (cfg : Config) (url : String) (s : DLState) :
    ∀ fuel attempt, attempt + fuel = cfg.retry_count + 1 → 1 ≤ fuel →
      (try_attempts cfg (fun _ => .transportError) url attempt fuel s).sleeps
        = (List.range' attempt (cfg.retry_count - attempt)).map
            (fun a => cfg.retry_delay * a) := by
  intro fuel
  induction fuel with
  | zero => intro attempt _ h2; omega
  | succ f ih =>
    intro attempt h1 _
    rcases Nat.eq_zero_or_pos f with hf | hf
    · subst hf
      have ha : attempt = cfg.retry_count := by omega
      have hn : ¬ attempt < cfg.retry_count := by omega
      simp [try_attempts, hn, ha]
    · have ha : attempt < cfg.retry_count := by omega
      have hrec := ih (attempt + 1) (by omega) (by omega)
      have hcount : cfg.retry_count - attempt = (cfg.retry_count - (attempt + 1)) + 1 := by
        omega
      simp only [try_attempts, ha, if_pos]
      rw [hcount, List.range'_succ]
      simp [hrec]

theorem download_article_allErr_sleeps (cfg : Config) (url : String) (s : DLState)
    (h1 : url ∉ s.tracked) (h2 : articleFile url ∉ s.files)
    (h3 : 1 ≤ cfg.retry_count) :
    (download_article cfg (fun _ => .transportError) url s).sleeps
      = (List.range' 1 (cfg.retry_count - 1)).map (fun a => cfg.retry_delay * a) := by
  unfold download_article
  rw [if_neg h1, if_neg h2]
  exact try_attempts_allErr_sleeps cfg url s cfg.retry_count 1 (by omega) (by omega)

end Independent

namespace Rekhta

theorem rek_try_allRaises_sleeps (ra : ℕ) (url : String) (s : RekState) :
    ∀ fuel attempt, attempt + fuel = ra →
      (rek_try ra (fun _ => .raises) url attempt fuel s).sleeps
        = (List.range' attempt (ra - 1 - attempt)).map (fun a => 2 ^ a) := by
  intro fuel
  induction fuel with
  | zero =>
    intro attempt h1
    have : ra - 1 - attempt = 0 := by omega
    simp [rek_try, this]
  | succ f ih =>
    intro attempt h1
    rcases Nat.eq_zero_or_pos f with hf | hf
    · subst hf
      have hn : ¬ attempt < ra - 1 := by omega
      have : ra - 1 - attempt = 0 := by omega
      simp [rek_try, hn, this]
    · have ha : attempt < ra - 1 := by omega
      have hrec := ih (attempt + 1) (by omega)
      have hcount : ra - 1 - attempt = (ra - 1 - (attempt + 1)) + 1 := by omega
      simp only [rek_try, ha, if_pos]
      rw [hcount, List.range'_succ]
      simp [hrec]

theorem download_article_allRaises_sleeps (ra : ℕ) (url : String) (s : RekState) :
    (download_article ra (fun _ => .raises) url s).sleeps
      = (List.range' 0 (ra - 1)).map (fun a => 2 ^ a) := by
  unfold download_article
  have := rek_try_allRaises_sleeps ra url s ra 0 (by omega)
  simpa using this

end Rekhta

/-! ## Claim C1 -/

/-- Claim C1, counterexample.  With retryDelay = 1 and retryCount = 3 and
every attempt a transport error, independent.py sleeps 1 then 2 seconds
between its three attempts, not the 1, 2, 4 seconds the claim asserts; with
retryCount = 4 the sleeps are 1, 2, 3 (linear, not the exponential
1, 2, 4), and rekhta-data.py with three all-failing attempts also sleeps
1 then 2 seconds. -/
theorem claim_C1_counterexample :
    (Independent.download_article ⟨100000, 3, 1, 10⟩ (fun _ => .transportError)
        "https://www.independenturdu.com/node/1" ⟨∅, ∅, ∅, [], []⟩).sleeps = [1, 2]
    ∧ (Independent.download_article ⟨100000, 3, 1, 10⟩ (fun _ => .transportError)
        "https://www.independenturdu.com/node/1" ⟨∅, ∅, ∅, [], []⟩).sleeps ≠ [1, 2, 4]
    ∧ (Independent.download_article ⟨100000, 4, 1, 10⟩ (fun _ => .transportError)
        "https://www.independenturdu.com/node/1" ⟨∅, ∅, ∅, [], []⟩).sleeps = [1, 2, 3]
    ∧ (Independent.download_article ⟨100000, 4, 1, 10⟩ (fun _ => .transportError)
        "https://www.independenturdu.com/node/1" ⟨∅, ∅, ∅, [], []⟩).sleeps ≠ [1, 2, 4]
    ∧ (Rekhta.download_article 3 (fun _ => .raises) "u" ⟨∅, [], ∅⟩).sleeps = [1, 2] := by
  refine ⟨by decide, by decide, by decide, by decide, by decide⟩

/-- Claim C1, amended.  A URL failing with a transport error on every
attempt is retried up to the configured retryCount total attempts, with
one sleep after each non-final attempt: independent.py sleeps
retryDelay * attempt (linear backoff, attempt counted from 1), and
rekhta-data.py sleeps 2 ^ attempt (attempt counted from 0); in both cases
the sleeps are strictly monotonically increasing (given retryDelay at
least 1), and with retryDelay = 1 and retryCount = 3 they are 1 then 2
seconds. -/
theorem claim_C1_amended (cfg : Independent.Config) (url : String)
    (s : Independent.DLState) (ra : ℕ) (url2 : String) (s2 : Rekhta.RekState)
    (h1 : url ∉ s.tracked) (h2 : Independent.articleFile url ∉ s.files)
    (h3 : 1 ≤ cfg.retry_count) (h4 : 1 ≤ cfg.retry_delay) :
    (Independent.download_article cfg (fun _ => .transportError) url s).sleeps
        = (List.range' 1 (cfg.retry_count - 1)).map (fun a => cfg.retry_delay * a)
    ∧ List.Pairwise (· < ·)
        (Independent.download_article cfg (fun _ => .transportError) url s).sleeps
    ∧ (Rekhta.download_article ra (fun _ => .raises) url2 s2).sleeps
        = (List.range' 0 (ra - 1)).map (fun a => 2 ^ a)
    ∧ List.Pairwise (· < ·)
        (Rekhta.download_article ra (fun _ => .raises) url2 s2).sleeps := by
  have e1 := Independent.download_article_allErr_sleeps cfg url s h1 h2 h3
  have e2 := Rekhta.download_article_allRaises_sleeps ra url2 s2
  refine ⟨e1, ?_, e2, ?_⟩
  · rw [e1]
    exact pairwise_lt_map_range'
      (fun a b h => (mul_lt_mul_left (by omega : 0 < cfg.retry_delay)).mpr h) 1 _
  · rw [e2]
    exact pairwise_lt_map_range'
      (fun a b h => Nat.pow_lt_pow_right (by omega) h) 0 _

/-- Claim C1, witness: the amended statement at retryDelay = 1,
retryCount = 3 on a fresh URL. -/
theorem claim_C1_witness :
    (Independent.download_article ⟨100000, 3, 1, 10⟩ (fun _ => .transportError)
        "https://www.independenturdu.com/node/1" ⟨∅, ∅, ∅, [], []⟩).sleeps
        = (List.range' 1 2).map (fun a => 1 * a)
    ∧ List.Pairwise (· < ·)
        (Independent.download_article ⟨100000, 3, 1, 10⟩ (fun _ => .transportError)
          "https://www.independenturdu.com/node/1" ⟨∅, ∅, ∅, [], []⟩).sleeps
    ∧ (Rekhta.download_article 3 (fun _ => .raises) "u" ⟨∅, [], ∅⟩).sleeps
        = (List.range' 0 2).map (fun a => 2 ^ a)
    ∧ List.Pairwise (· < ·)
        (Rekhta.download_article 3 (fun _ => .raises) "u" ⟨∅, [], ∅⟩).sleeps :=
  claim_C1_amended ⟨100000, 3, 1, 10⟩ "https://www.independenturdu.com/node/1"
    ⟨∅, ∅, ∅, [], []⟩ 3 "u" ⟨∅, [], ∅⟩ (by decide) (by decide) (by decide) (by decide)

namespace Independent

theorem try_attempts_tracked (cfg : Config) (fetch : ℕ → FetchOutcome) (url : String) :
    ∀ fuel attempt s,
      s.tracked ⊆ (try_attempts cfg fetch url attempt fuel s).state.tracked
      ∧ (try_attempts cfg fetch url attempt fuel s).state.tracked.card
          ≤ s.tracked.card + 1 := by
  intro fuel
  induction fuel with
  | zero => intro attempt s; exact ⟨Finset.Subset.refl _, Nat.le_succ _⟩
  | succ f ih =>
    intro attempt s
    rcases h : fetch attempt with _ | _ | _
    · by_cases hlt : attempt < cfg.retry_count
      · simpa [try_attempts, h, hlt] using ih (attempt + 1) s
      · simp [try_attempts, h, hlt]
    · by_cases hlt : attempt < cfg.retry_count
      · simpa [try_attempts, h, hlt] using ih (attempt + 1) s
      · simp [try_attempts, h, hlt]
    · refine ⟨?_, ?_⟩
      · simpa [try_attempts, h] using Finset.subset_insert url s.tracked
      · simpa [try_attempts, h] using Finset.card_insert_le url s.tracked

theorem download_article_tracked (cfg : Config) (fetch : ℕ → FetchOutcome)
    (url : String) (s : DLState) :
    s.tracked ⊆ (download_article cfg fetch url s).state.tracked
    ∧ (download_article cfg fetch url s).state.tracked.card ≤ s.tracked.card + 1 := by
  unfold download_article
  by_cases h1 : url ∈ s.tracked
  · simp [h1]
  · by_cases h2 : articleFile url ∈ s.files
    · refine ⟨?_, ?_⟩
      · simpa [h1, h2] using Finset.subset_insert url s.tracked
      · simpa [h1, h2] using Finset.card_insert_le url s.tracked
    · simpa [h1, h2] using try_attempts_tracked cfg fetch url cfg.retry_count 1 s

/-- A URL already in the tracked set is skipped outright: no fetch, no
artifact write, no sleep, no state change. -/
theorem download_article_skip (cfg : Config) (fetch : ℕ → FetchOutcome)
    (url : String) (s : DLState) (h : url ∈ s.tracked) :
    download_article cfg fetch url s = ⟨s, 0, 0, [], .skippedTracked⟩ := by
  simp [download_article, h]

theorem pbStep_keeps (cfg : Config) (fetchOf : String → ℕ → FetchOutcome)
    (acc : DLState × List String) (url u : String)
    (h1 : u ∈ acc.1.tracked) (h2 : u ∉ acc.2) :
    u ∈ (pbStep cfg fetchOf acc url).1.tracked
    ∧ u ∉ (pbStep cfg fetchOf acc url).2 := by
  unfold pbStep
  by_cases hskip : url ∈ acc.1.tracked ∨ url ∈ acc.1.failed
  · simpa [hskip] using ⟨h1, h2⟩
  · have hne : u ≠ url := by
      rintro rfl
      exact hskip (Or.inl h1)
    refine ⟨?_, ?_⟩
    · simpa [hskip] using (download_article_tracked cfg (fetchOf url) url acc.1).1 h1
    · simp only [hskip, if_false]
      by_cases hf : (download_article cfg (fetchOf url) url acc.1).fetches = 0
      · simpa [hf] using h2
      · simp only [hf, if_false, List.mem_append, List.mem_singleton]
        rintro (h | h)
        · exact h2 h
        · exact hne h

theorem pbStep_card (cfg : Config) (fetchOf : String → ℕ → FetchOutcome)
    (acc : DLState × List String) (url : String) :
    (pbStep cfg fetchOf acc url).1.tracked.card ≤ acc.1.tracked.card + 1 := by
  unfold pbStep
  by_cases hskip : url ∈ acc.1.tracked ∨ url ∈ acc.1.failed
  · simp [hskip]
  · simpa [hskip] using (download_article_tracked cfg (fetchOf url) url acc.1).2

theorem foldl_pbStep_keeps (cfg : Config) (fetchOf : String → ℕ → FetchOutcome)
    (u : String) :
    ∀ (urls : List String) (acc : DLState × List String),
      u ∈ acc.1.tracked → u ∉ acc.2 →
      u ∈ (urls.foldl (pbStep cfg fetchOf) acc).1.tracked
      ∧ u ∉ (urls.foldl (pbStep cfg fetchOf) acc).2 := by
  intro urls
  induction urls with
  | nil => intro acc h1 h2; exact ⟨h1, h2⟩
  | cons url rest ih =>
    intro acc h1 h2
    have hstep := pbStep_keeps cfg fetchOf acc url u h1 h2
    simpa [List.foldl_cons] using ih (pbStep cfg fetchOf acc url) hstep.1 hstep.2

theorem foldl_pbStep_card (cfg : Config) (fetchOf : String → ℕ → FetchOutcome) :
    ∀ (urls : List String) (acc : DLState × List String),
      (urls.foldl (pbStep cfg fetchOf) acc).1.tracked.card
        ≤ acc.1.tracked.card + urls.length := by
  intro urls
  induction urls with
  | nil => intro acc; simp
  | cons url rest ih =>
    intro acc
    calc (List.foldl (pbStep cfg fetchOf) (pbStep cfg fetchOf acc url) rest).1.tracked.card
        ≤ (pbStep cfg fetchOf acc url).1.tracked.card + rest.length := ih _
      _ ≤ acc.1.tracked.card + 1 + rest.length :=
          Nat.add_le_add_right (pbStep_card cfg fetchOf acc url) _
      _ = acc.1.tracked.card + (url :: rest).length := by simp; omega

theorem process_batch_keeps (cfg : Config) (fetchOf : String → ℕ → FetchOutcome)
    (urls : List String) (s : DLState) (u : String) (h : u ∈ s.tracked) :
    u ∈ (process_batch cfg fetchOf urls s).1.tracked
    ∧ u ∉ (process_batch cfg fetchOf urls s).2 :=
  foldl_pbStep_keeps cfg fetchOf u urls (s, []) h (by simp)

theorem process_batch_card (cfg : Config) (fetchOf : String → ℕ → FetchOutcome)
    (urls : List String) (s : DLState) :
    (process_batch cfg fetchOf urls s).1.tracked.card
      ≤ s.tracked.card + urls.length :=
  foldl_pbStep_card cfg fetchOf urls (s, [])

/-- Once the completed count has reached max_downloads, the batch loop of
main dispatches nothing further. -/
theorem crawl_main_stop (cfg : Config) (fetchOf : String → ℕ → FetchOutcome)
    (b : List String) (bs : List (List String)) (s : DLState) (fetched : List String)
    (h : cfg.max_downloads ≤ s.tracked.card) :
    crawl_main cfg fetchOf (b :: bs) s fetched = (s, fetched) := by
  simp [crawl_main, h]

theorem crawl_main_card (cfg : Config) (fetchOf : String → ℕ → FetchOutcome) :
    ∀ (batches : List (List String)) (s : DLState) (fetched : List String),
      (∀ b ∈ batches, b.length ≤ cfg.batch_size) →
      (crawl_main cfg fetchOf batches s fetched).1.tracked.card
        ≤ max s.tracked.card (cfg.max_downloads - 1 + cfg.batch_size) := by
  intro batches
  induction batches with
  | nil => intro s fetched _; exact le_max_left _ _
  | cons b bs ih =>
    intro s fetched hlen
    by_cases hcap : cfg.max_downloads ≤ s.tracked.card
    · simp only [crawl_main, hcap, if_true]
      exact le_max_left _ _
    · simp only [crawl_main, hcap, if_false]
      have hcard : (process_batch cfg fetchOf b s).1.tracked.card
          ≤ cfg.max_downloads - 1 + cfg.batch_size := by
        have h1 := process_batch_card cfg fetchOf b s
        have h2 := hlen b (by simp)
        omega
      have hrec := ih (process_batch cfg fetchOf b s).1 (fetched ++ (process_batch cfg fetchOf b s).2)
        (fun b2 hb2 => hlen b2 (by simp [hb2]))
      refine le_trans hrec (le_trans (max_le hcard le_rfl) (le_max_right _ _))

theorem crawl_main_keeps (cfg : Config) (fetchOf : String → ℕ → FetchOutcome)
    (u : String) :
    ∀ (batches : List (List String)) (s : DLState) (fetched : List String),
      u ∈ s.tracked → u ∉ fetched →
      u ∉ (crawl_main cfg fetchOf batches s fetched).2 := by
  intro batches
  induction batches with
  | nil => intro s fetched _ h2; exact h2
  | cons b bs ih =>
    intro s fetched h1 h2
    by_cases hcap : cfg.max_downloads ≤ s.tracked.card
    · simpa [crawl_main, hcap] using h2
    · simp only [crawl_main, hcap, if_false]
      have hb := process_batch_keeps cfg fetchOf b s u h1
      refine ih _ _ hb.1 ?_
      simp only [List.mem_append]
      rintro (h | h)
      · exact h2 h
      · exact hb.2 h

end Independent

namespace WikiHow

theorem processBatch_le (maxDownloads : ℕ) (ok : String → Bool) :
    ∀ (urls : List String) (tracked : Finset String) (total : ℕ),
      (processBatch maxDownloads ok urls tracked total).2 ≤ max total maxDownloads := by
  intro urls
  induction urls with
  | nil => intro tracked total; exact le_max_left _ _
  | cons u rest ih =>
    intro tracked total
    by_cases hcap : maxDownloads ≤ total
    · simp only [processBatch, hcap, if_true]
      exact le_max_left _ _
    · by_cases hok : ok u
      · simp only [processBatch, hcap, if_false, hok, if_true]
        have := ih (insert u tracked) (total + 1)
        have hm : max (total + 1) maxDownloads ≤ max total maxDownloads := by
          apply max_le _ (le_max_right _ _)
          omega
        exact le_trans this hm
      · simp only [processBatch, hcap, if_false, hok]
        exact ih tracked total

/-- The wiki-how crawl loop never takes the session download count past
MAX_DOWNLOADS (the per-URL cap check). -/
theorem crawl_total_le (maxDownloads batchSize : ℕ) (ok : String → Bool)
    (disc : String → List String) :
    ∀ (fuel : ℕ) (s : WHState),
      (crawl maxDownloads batchSize ok disc fuel s).total ≤ max s.total maxDownloads := by
  intro fuel
  induction fuel with
  | zero => intro s; exact le_max_left _ _
  | succ f ih =>
    intro s
    by_cases hstop : s.queue = [] ∨ maxDownloads ≤ s.total
    · simp only [crawl, hstop, if_true]
      exact le_max_left _ _
    · simp only [crawl, hstop, if_false]
      have h1 := processBatch_le maxDownloads ok
        (takeBatch s.tracked batchSize s.queue []).1 s.tracked s.total
      have h2 := ih ⟨(processBatch maxDownloads ok (takeBatch s.tracked batchSize s.queue []).1
          s.tracked s.total).1,
        (takeBatch s.tracked batchSize s.queue []).2
          ++ List.insertionSort urlLe
              (newLinks disc (takeBatch s.tracked batchSize s.queue []).1
                (processBatch maxDownloads ok (takeBatch s.tracked batchSize s.queue []).1
                  s.tracked s.total).1 s.seen),
        s.seen ∪ (newLinks disc (takeBatch s.tracked batchSize s.queue []).1
            (processBatch maxDownloads ok (takeBatch s.tracked batchSize s.queue []).1
              s.tracked s.total).1 s.seen).toFinset,
        (processBatch maxDownloads ok (takeBatch s.tracked batchSize s.queue []).1
          s.tracked s.total).2⟩
    
      refine le_trans h2 (max_le (le_trans h1 ?_) (le_max_right _ _))
      exact max_le (le_max_left _ _) (le_max_right _ _)

end WikiHow

/-! ## Claim C2 -/

/-- Claim C2, counterexample.  In independent.py the cap is checked only
at batch boundaries: with max_downloads = 5, batch_size = 10 and twelve
candidate URLs that all succeed, the first batch of ten is processed in
full, so ten URLs end up marked completed, not exactly five. -/
theorem claim_C2_counterexample :
    (Independent.crawl_main ⟨5, 3, 1, 10⟩ (fun _ _ => .ok)
        (Independent.toBatches 10 ((List.range 12).map (fun i => "u" ++ toString i)))
        ⟨∅, ∅, ∅, [], []⟩ []).1.tracked.card = 10
    ∧ (10 : ℕ) ≠ 5 := by
  refine ⟨by decide, by decide⟩

/-- Claim C2, amended.  The scheduler stops dispatching new work once the
completed count has reached maxDownloads, but the granularity differs per
script: independent.py checks the cap only before each batch, so the
final completed count can exceed maxDownloads by up to batchSize - 1 (it
is bounded by maxDownloads - 1 + batchSize when every batch respects
batchSize); wiki-how.py re-checks the cap before every URL, so its
session download count never exceeds maxDownloads.  With maxDownloads = 5
and candidates that all succeed, wiki-how.py completes exactly 5. -/
theorem claim_C2_amended :
    (∀ (cfg : Independent.Config) (fetchOf : String → ℕ → Independent.FetchOutcome)
        (b : List String) (bs : List (List String)) (s : Independent.DLState)
        (fetched : List String),
      cfg.max_downloads ≤ s.tracked.card →
      Independent.crawl_main cfg fetchOf (b :: bs) s fetched = (s, fetched))
    ∧ (∀ (cfg : Independent.Config) (fetchOf : String → ℕ → Independent.FetchOutcome)
        (batches : List (List String)) (s : Independent.DLState) (fetched : List String),
      (∀ b ∈ batches, b.length ≤ cfg.batch_size) →
      (Independent.crawl_main cfg fetchOf batches s fetched).1.tracked.card
        ≤ max s.tracked.card (cfg.max_downloads - 1 + cfg.batch_size))
    ∧ (∀ (maxDownloads batchSize : ℕ) (ok : String → Bool)
        (disc : String → List String) (fuel : ℕ) (s : WikiHow.WHState),
      (WikiHow.crawl maxDownloads batchSize ok disc fuel s).total
        ≤ max s.total maxDownloads)
    ∧ (WikiHow.crawl 5 500 (fun _ => true) (fun _ => []) 3
        ⟨∅, (List.range 7).map (fun i => "w" ++ toString i), ∅, 0⟩).total = 5 :=
  ⟨fun cfg fetchOf b bs s fetched h => Independent.crawl_main_stop cfg fetchOf b bs s fetched h,
   fun cfg fetchOf batches s fetched h => Independent.crawl_main_card cfg fetchOf batches s fetched h,
   fun maxD bs ok disc fuel s => WikiHow.crawl_total_le maxD bs ok disc fuel s,
   by decide⟩

/-- Claim C2, witness: the amended statement applied at concrete inputs
(a tracker already at the cap is not dispatched to; a capped batch list
keeps the completed count under the bound; the wiki-how count respects
the cap). -/
theorem claim_C2_witness :
    Independent.crawl_main ⟨5, 3, 1, 10⟩ (fun _ _ => .ok) [["a"]]
        ⟨{"u0", "u1", "u2", "u3", "u4"}, ∅, ∅, [], []⟩ []
      = (⟨{"u0", "u1", "u2", "u3", "u4"}, ∅, ∅, [], []⟩, [])
    ∧ (Independent.crawl_main ⟨5, 3, 1, 10⟩ (fun _ _ => .ok)
        (Independent.toBatches 10 ((List.range 12).map (fun i => "u" ++ toString i)))
        ⟨∅, ∅, ∅, [], []⟩ []).1.tracked.card ≤ max 0 (5 - 1 + 10)
    ∧ (WikiHow.crawl 5 500 (fun _ => true) (fun _ => []) 3
        ⟨∅, (List.range 7).map (fun i => "w" ++ toString i), ∅, 0⟩).total ≤ max 0 5 :=
  ⟨claim_C2_amended.1 ⟨5, 3, 1, 10⟩ (fun _ _ => .ok) ["a"] []
      ⟨{"u0", "u1", "u2", "u3", "u4"}, ∅, ∅, [], []⟩ [] (by decide),
   by
    have h := claim_C2_amended.2.1 ⟨5, 3, 1, 10⟩ (fun _ _ => .ok)
      (Independent.toBatches 10 ((List.range 12).map (fun i => "u" ++ toString i)))
      ⟨∅, ∅, ∅, [], []⟩ [] (by decide)
    simpa using h,
   claim_C2_amended.2.2.1 5 500 (fun _ => true) (fun _ => []) 3
      ⟨∅, (List.range 7).map (fun i => "w" ++ toString i), ∅, 0⟩⟩

/-! ## Claim C4 -/

/-- Claim C4, confirmed.  A URL already in the tracked set at dispatch
time is skipped with zero network fetches and an unchanged state, both by
download_article itself and across process_batch and the whole batch loop;
and with tracker {A, B} and candidate list [A, B, C] where every fetch
succeeds, only C is fetched (and the tracker afterwards is {A, B, C}). -/
theorem claim_C4 (cfg : Independent.Config)
    (fetchOf : String → ℕ → Independent.FetchOutcome) (url : String)
    (s : Independent.DLState) (urls : List String)
    (batches : List (List String)) (h : url ∈ s.tracked) :
    Independent.download_article cfg (fetchOf url) url s
        = ⟨s, 0, 0, [], .skippedTracked⟩
    ∧ url ∉ (Independent.process_batch cfg fetchOf urls s).2
    ∧ url ∉ (Independent.crawl_main cfg fetchOf batches s []).2
    ∧ (Independent.process_batch ⟨100000, 3, 1, 10⟩ (fun _ _ => .ok) ["A", "B", "C"]
        ⟨{"A", "B"}, ∅, ∅, [], []⟩).2 = ["C"]
    ∧ (Independent.process_batch ⟨100000, 3, 1, 10⟩ (fun _ _ => .ok) ["A", "B", "C"]
        ⟨{"A", "B"}, ∅, ∅, [], []⟩).1.tracked = {"A", "B", "C"} :=
  ⟨Independent.download_article_skip cfg (fetchOf url) url s h,
   (Independent.process_batch_keeps cfg fetchOf urls s url h).2,
   Independent.crawl_main_keeps cfg fetchOf url batches s [] h (by simp),
   by decide, by decide⟩

/-- Claim C4, witness: the claim applied with tracker {A, B} and
candidate list [A, B, C]. -/
theorem claim_C4_witness :
    Independent.download_article ⟨100000, 3, 1, 10⟩ ((fun _ _ => .ok) "A") "A"
        ⟨{"A", "B"}, ∅, ∅, [], []⟩
        = ⟨⟨{"A", "B"}, ∅, ∅, [], []⟩, 0, 0, [], .skippedTracked⟩
    ∧ "A" ∉ (Independent.process_batch ⟨100000, 3, 1, 10⟩ (fun _ _ => .ok) ["A", "B", "C"]
        ⟨{"A", "B"}, ∅, ∅, [], []⟩).2
    ∧ "A" ∉ (Independent.crawl_main ⟨100000, 3, 1, 10⟩ (fun _ _ => .ok) [["A", "B", "C"]]
        ⟨{"A", "B"}, ∅, ∅, [], []⟩ []).2
    ∧ (Independent.process_batch ⟨100000, 3, 1, 10⟩ (fun _ _ => .ok) ["A", "B", "C"]
        ⟨{"A", "B"}, ∅, ∅, [], []⟩).2 = ["C"]
    ∧ (Independent.process_batch ⟨100000, 3, 1, 10⟩ (fun _ _ => .ok) ["A", "B", "C"]
        ⟨{"A", "B"}, ∅, ∅, [], []⟩).1.tracked = {"A", "B", "C"} :=
  claim_C4 ⟨100000, 3, 1, 10⟩ (fun _ _ => .ok) "A" ⟨{"A", "B"}, ∅, ∅, [], []⟩
    ["A", "B", "C"] [["A", "B", "C"]] (by decide)

namespace Independent

theorem try_attempts_success (cfg : Config) (fetch : ℕ → FetchOutcome) (url : String) :
    ∀ (fuel attempt : ℕ) (s : DLState),
      (try_attempts cfg fetch url attempt fuel s).outcome = .success →
      (try_attempts cfg fetch url attempt fuel s).writes = 1
      ∧ (try_attempts cfg fetch url attempt fuel s).state.trackFile = s.trackFile ++ [url]
      ∧ (try_attempts cfg fetch url attempt fuel s).state.tracked = insert url s.tracked
      ∧ articleFile url ∈ (try_attempts cfg fetch url attempt fuel s).state.files := by
  intro fuel
  induction fuel with
  | zero => intro attempt s h; simp [try_attempts] at h
  | succ f ih =>
    intro attempt s h
    rcases hf : fetch attempt with _ | _ | _
    · by_cases hlt : attempt < cfg.retry_count
      · simp only [try_attempts, hf, hlt, if_true] at h ⊢
        exact ih (attempt + 1) s h
      · simp [try_attempts, hf, hlt] at h
    · by_cases hlt : attempt < cfg.retry_count
      · simp only [try_attempts, hf, hlt, if_true] at h ⊢
        exact ih (attempt + 1) s h
      · simp [try_attempts, hf, hlt] at h
    · simp [try_attempts, hf]

theorem try_attempts_artifact (cfg : Config) (fetch : ℕ → FetchOutcome) (url : String) :
    ∀ (fuel attempt : ℕ) (s : DLState), url ∉ s.tracked →
      url ∈ (try_attempts cfg fetch url attempt fuel s).state.tracked →
      articleFile url ∈ (try_attempts cfg fetch url attempt fuel s).state.files := by
  intro fuel
  induction fuel with
  | zero => intro attempt s h1 h2; simp [try_attempts] at h2; exact absurd h2 h1
  | succ f ih =>
    intro attempt s h1 h2
    rcases hf : fetch attempt with _ | _ | _
    · by_cases hlt : attempt < cfg.retry_count
      · simp only [try_attempts, hf, hlt, if_true] at h2 ⊢
        exact ih (attempt + 1) s h1 h2
      · simp only [try_attempts, hf, hlt, if_false] at h2
        exact absurd h2 h1
    · by_cases hlt : attempt < cfg.retry_count
      · simp only [try_attempts, hf, hlt, if_true] at h2 ⊢
        exact ih (attempt + 1) s h1 h2
      · simp only [try_attempts, hf, hlt, if_false] at h2
        exact absurd h2 h1
    · simp [try_attempts, hf]

/-- A successful download_article call performs exactly one artifact
write, appends exactly one tracker-log line, adds the URL to the tracked
set, and leaves the artifact file present. -/
theorem download_article_success (cfg : Config) (fetch : ℕ → FetchOutcome)
    (url : String) (s : DLState)
    (h : (download_article cfg fetch url s).outcome = .success) :
    (download_article cfg fetch url s).writes = 1
    ∧ (download_article cfg fetch url s).state.trackFile = s.trackFile ++ [url]
    ∧ (download_article cfg fetch url s).state.tracked = insert url s.tracked
    ∧ articleFile url ∈ (download_article cfg fetch url s).state.files := by
  unfold download_article at h ⊢
  by_cases h1 : url ∈ s.tracked
  · simp [h1] at h
  · by_cases h2 : articleFile url ∈ s.files
    · simp [h1, h2] at h
    · simp only [h1, h2, if_false] at h ⊢
      exact try_attempts_success cfg fetch url cfg.retry_count 1 s h

/-- A URL that becomes newly tracked by download_article has its artifact
file present in the download directory afterwards. -/
theorem download_article_artifact (cfg : Config) (fetch : ℕ → FetchOutcome)
    (url : String) (s : DLState) (h1 : url ∉ s.tracked)
    (h2 : url ∈ (download_article cfg fetch url s).state.tracked) :
    articleFile url ∈ (download_article cfg fetch url s).state.files := by
  unfold download_article at h2 ⊢
  by_cases ht : url ∈ s.tracked
  · exact absurd ht h1
  · by_cases hf : articleFile url ∈ s.files
    · simpa [ht, hf] using hf
    · simp only [ht, hf, if_false] at h2 ⊢
      exact try_attempts_artifact cfg fetch url cfg.retry_count 1 s h1 h2

end Independent

/-! ## Claim C3 -/

/-- Claim C3, counterexample.  In nature-articles.py a fetch that succeeds
with markdown equal to None marks the URL completed (tracker-log line
appended, tracked set grown) while performing zero artifact writes, so a
URL can be marked completed without any artifact file written. -/
theorem claim_C3_counterexample :
    (Nature.download_article (.ok false) "https://www.nature.com/articles/x"
        ⟨∅, [], ∅⟩).1.tracked = {"https://www.nature.com/articles/x"}
    ∧ (Nature.download_article (.ok false) "https://www.nature.com/articles/x"
        ⟨∅, [], ∅⟩).1.trackFile = ["https://www.nature.com/articles/x"]
    ∧ (Nature.download_article (.ok false) "https://www.nature.com/articles/x"
        ⟨∅, [], ∅⟩).2 = 0
    ∧ (Nature.download_article (.ok false) "https://www.nature.com/articles/x"
        ⟨∅, [], ∅⟩).1.files = ∅ := by
  refine ⟨by decide, by decide, by decide, by decide⟩

/-- Claim C3, amended.  In independent.py a successful URL gets exactly
one artifact write and exactly one tracker-log append, and any URL that
becomes newly tracked has its artifact file present in durable storage
(written by this call, or already present via the file-exists shortcut).
In nature-articles.py a successful fetch whose markdown is present also
writes exactly one artifact, but a successful fetch whose markdown is
None is marked completed with zero artifact writes, so completion there
only guarantees at most one artifact write, not exactly one. -/
theorem claim_C3_amended (cfg : Independent.Config)
    (fetch : ℕ → Independent.FetchOutcome) (url : String)
    (s : Independent.DLState) (url2 : String) (s2 : Nature.NatState)
    (h : (Independent.download_article cfg fetch url s).outcome = .success)
    (h1 : url ∉ s.tracked)
    (h2 : url ∈ (Independent.download_article cfg fetch url s).state.tracked) :
    (Independent.download_article cfg fetch url s).writes = 1
    ∧ (Independent.download_article cfg fetch url s).state.trackFile
        = s.trackFile ++ [url]
    ∧ Independent.articleFile url
        ∈ (Independent.download_article cfg fetch url s).state.files
    ∧ (Nature.download_article (.ok true) url2 s2).2 = 1
    ∧ (Nature.download_article (.ok true) url2 s2).1.trackFile
        = s2.trackFile ++ [url2]
    ∧ (Nature.download_article (.ok false) url2 s2).2 = 0
    ∧ (Nature.download_article (.ok false) url2 s2).1.tracked
        = insert url2 s2.tracked :=
  ⟨(Independent.download_article_success cfg fetch url s h).1,
   (Independent.download_article_success cfg fetch url s h).2.1,
   Independent.download_article_artifact cfg fetch url s h1 h2,
   rfl, rfl, rfl, rfl⟩

/-- Claim C3, witness: the amended statement at a fresh URL whose single
attempt succeeds. -/
theorem claim_C3_witness :
    (Independent.download_article ⟨100000, 3, 1, 10⟩ (fun _ => .ok)
        "https://www.independenturdu.com/node/7" ⟨∅, ∅, ∅, [], []⟩).writes = 1
    ∧ (Independent.download_article ⟨100000, 3, 1, 10⟩ (fun _ => .ok)
        "https://www.independenturdu.com/node/7" ⟨∅, ∅, ∅, [], []⟩).state.trackFile
        = ([] : List String) ++ ["https://www.independenturdu.com/node/7"]
    ∧ Independent.articleFile "https://www.independenturdu.com/node/7"
        ∈ (Independent.download_article ⟨100000, 3, 1, 10⟩ (fun _ => .ok)
            "https://www.independenturdu.com/node/7" ⟨∅, ∅, ∅, [], []⟩).state.files
    ∧ (Nature.download_article (.ok true) "https://www.nature.com/articles/y"
        ⟨∅, [], ∅⟩).2 = 1
    ∧ (Nature.download_article (.ok true) "https://www.nature.com/articles/y"
        ⟨∅, [], ∅⟩).1.trackFile = ([] : List String) ++ ["https://www.nature.com/articles/y"]
    ∧ (Nature.download_article (.ok false) "https://www.nature.com/articles/y"
        ⟨∅, [], ∅⟩).2 = 0
    ∧ (Nature.download_article (.ok false) "https://www.nature.com/articles/y"
        ⟨∅, [], ∅⟩).1.tracked = insert "https://www.nature.com/articles/y" ∅ :=
  claim_C3_amended ⟨100000, 3, 1, 10⟩ (fun _ => .ok)
    "https://www.independenturdu.com/node/7" ⟨∅, ∅, ∅, [], []⟩
    "https://www.nature.com/articles/y" ⟨∅, [], ∅⟩
    (by decide) (by decide) (by decide)

namespace Independent

/-- Appending one line to the tracker log grows the loaded set by the
stripped line, unless the line is blank after stripping, in which case the
loaded set is unchanged. -/
theorem load_tracked_lines_append (log : List String) (u : String) :
    load_tracked_lines (log ++ [u]) =
      if pyStrip u = "" then load_tracked_lines log
      else insert (pyStrip u) (load_tracked_lines log) := by
  unfold load_tracked_lines
  by_cases h : pyStrip u = ""
  · simp [List.filter_append, h]
  · simp only [h, if_false, List.map_append, List.map_cons, List.map_nil,
      List.filter_append, List.toFinset_append]
    ext a
    simp only [Finset.mem_union, List.mem_toFinset, List.mem_filter, Finset.mem_insert]
    constructor
    · rintro (ha | ha)
      · exact Or.inr ha
      · left
        rcases (by simpa using ha : a = pyStrip u ∧ ¬ a = "") with ⟨rfl, _⟩
        rfl
    · rintro (rfl | ha)
      · right
        simp [List.mem_filter, h]
      · exact Or.inl ha

end Independent

/-! ## Claim C5 -/

/-- Claim C5, confirmed.  Appending URLs to the tracker log one per line
via add_to_tracked and then reloading round-trips: for URLs that are
strip-invariant and non-blank (URLs contain no surrounding whitespace and
no newline, which the line-based log model assumes), the reloaded set is
the old loaded set together with exactly the written URLs; and a blank or
whitespace-only trailing line is skipped by the loader rather than
failing. -/
theorem claim_C5 (log urls : List String)
    (h : ∀ u ∈ urls, pyStrip u = u ∧ u ≠ "") :
    Independent.load_tracked_lines (urls.foldl Independent.add_to_tracked log)
      = Independent.load_tracked_lines log ∪ urls.toFinset
    ∧ ∀ (l : List String) (b : String), pyStrip b = "" →
        Independent.load_tracked_lines (l ++ [b]) = Independent.load_tracked_lines l := by
  constructor
  · induction urls generalizing log with
    | nil => simp
    | cons u us ih =>
      have hu := h u (by simp)
      have hrest : ∀ v ∈ us, pyStrip v = v ∧ v ≠ "" := fun v hv => h v (by simp [hv])
      have hstep : Independent.load_tracked_lines (Independent.add_to_tracked log u)
          = insert u (Independent.load_tracked_lines log) := by
        unfold Independent.add_to_tracked
        rw [Independent.load_tracked_lines_append log u, hu.1, if_neg hu.2]
      calc Independent.load_tracked_lines ((u :: us).foldl Independent.add_to_tracked log)
          = Independent.load_tracked_lines (us.foldl Independent.add_to_tracked
              (Independent.add_to_tracked log u)) := by simp [List.foldl_cons]
        _ = Independent.load_tracked_lines (Independent.add_to_tracked log u)
              ∪ us.toFinset := ih _ hrest
        _ = insert u (Independent.load_tracked_lines log) ∪ us.toFinset := by rw [hstep]
        _ = Independent.load_tracked_lines log ∪ (u :: us).toFinset := by
              ext a
              simp only [Finset.mem_union, Finset.mem_insert, List.toFinset_cons,
                List.mem_toFinset]
              tauto
  · intro l b hb
    rw [Independent.load_tracked_lines_append l b, if_pos hb]

/-- Claim C5, witness: writing A then B into an empty log and reloading
returns exactly the set containing A and B, and a blank line is skipped. -/
theorem claim_C5_witness :
    Independent.load_tracked_lines ((["A", "B"]).foldl Independent.add_to_tracked [])
      = Independent.load_tracked_lines [] ∪ (["A", "B"]).toFinset
    ∧ ∀ (l : List String) (b : String), pyStrip b = "" →
        Independent.load_tracked_lines (l ++ [b]) = Independent.load_tracked_lines l :=
  claim_C5 [] ["A", "B"] (by decide)

namespace Independent

theorem loadCandAux_eq_dedupSeen :
    ∀ (lines : List String) (seen : Finset String),
      loadCandAux lines seen = dedupSeen (cleanLines lines) seen := by
  intro lines
  induction lines with
  | nil => intro seen; simp [loadCandAux, cleanLines, dedupSeen]
  | cons line rest ih =>
    intro seen
    by_cases hb : pyStrip line = ""
    · have hclean : cleanLines (line :: rest) = cleanLines rest := by
        simp [cleanLines, hb]
      have hcond : ¬ (pyStrip line ≠ "" ∧ pyStrip line ∉ seen) := by simp [hb]
      rw [hclean]
      simp only [loadCandAux]
      rw [if_neg hcond]
      exact ih seen
    · have hclean : cleanLines (line :: rest) = pyStrip line :: cleanLines rest := by
        simp [cleanLines, hb]
      rw [hclean]
      by_cases hs : pyStrip line ∈ seen
      · have hcond : ¬ (pyStrip line ≠ "" ∧ pyStrip line ∉ seen) := by simp [hs]
        simp only [loadCandAux, dedupSeen]
        rw [if_neg hcond, if_pos hs]
        exact ih seen
      · have hcond : pyStrip line ≠ "" ∧ pyStrip line ∉ seen := ⟨hb, hs⟩
        simp only [loadCandAux, dedupSeen]
        rw [if_pos hcond, if_neg hs, ih (insert (pyStrip line) seen)]

theorem dedupSeen_insert (a : String) :
    ∀ (l : List String) (seen : Finset String),
      dedupSeen l (insert a seen) = dedupSeen (l.filter (· ≠ a)) seen := by
  intro l
  induction l with
  | nil => intro seen; simp [dedupSeen]
  | cons b l ih =>
    intro seen
    by_cases hba : b = a
    · subst hba
      simp only [dedupSeen, Finset.mem_insert, true_or, if_true, List.filter_cons,
        decide_not]
      simp [ih seen]
    · by_cases hbs : b ∈ seen
      · have h1 : b ∈ insert a seen := Finset.mem_insert_of_mem hbs
        simp only [dedupSeen, h1, if_true, List.filter_cons]
        have : (decide ¬ b = a) = true := by simp [hba]
        simp [this, dedupSeen, hbs, ih seen]
      · have h1 : b ∉ insert a seen := by
          simp [Finset.mem_insert, hba, hbs]
        simp only [dedupSeen, h1, if_false, List.filter_cons]
        have : (decide ¬ b = a) = true := by simp [hba]
        simp only [this, if_true, dedupSeen, hbs, if_false]
        rw [Finset.Insert.comm, ih (insert b seen)]

theorem dedupSeen_empty_eq_firstSeenDedup :
    ∀ (l : List String), dedupSeen l ∅ = firstSeenDedup l := by
  intro l
  induction l using firstSeenDedup.induct with
  | case1 => simp [dedupSeen, firstSeenDedup]
  | case2 a l ih =>
    rw [firstSeenDedup]
    simp only [dedupSeen, Finset.not_mem_empty, if_false]
    rw [dedupSeen_insert a l ∅, ih]

theorem mem_firstSeenDedup :
    ∀ (l : List String) (x : String), x ∈ firstSeenDedup l ↔ x ∈ l := by
  intro l
  induction l using firstSeenDedup.induct with
  | case1 => simp [firstSeenDedup]
  | case2 a l ih =>
    intro x
    rw [firstSeenDedup]
    by_cases hxa : x = a
    · subst hxa; simp
    · simp only [List.mem_cons, hxa, false_or]
      rw [ih x]
      simp [List.mem_filter, hxa]

theorem nodup_firstSeenDedup : ∀ (l : List String), (firstSeenDedup l).Nodup := by
  intro l
  induction l using firstSeenDedup.induct with
  | case1 => simp [firstSeenDedup]
  | case2 a l ih =>
    rw [firstSeenDedup]
    refine List.Nodup.cons ?_ ih
    intro hmem
    have := (mem_firstSeenDedup _ a).mp hmem
    simp [List.mem_filter] at this

end Independent

/-! ## Claim C9 -/

/-- Claim C9, confirmed.  load_candidate_urls returns the stripped
non-blank lines of the candidate file with later duplicates removed: the
result equals the first-seen deduplication of the cleaned line list (so
each distinct non-blank URL appears in the position of its first
occurrence), it has no duplicates, and it contains exactly the distinct
stripped non-blank lines. -/
theorem claim_C9 (lines : List String) :
    Independent.load_candidate_urls lines
      = Independent.firstSeenDedup (Independent.cleanLines lines)
    ∧ (Independent.load_candidate_urls lines).Nodup
    ∧ ∀ u, u ∈ Independent.load_candidate_urls lines
        ↔ u ∈ Independent.cleanLines lines := by
  have heq : Independent.load_candidate_urls lines
      = Independent.firstSeenDedup (Independent.cleanLines lines) := by
    unfold Independent.load_candidate_urls
    rw [Independent.loadCandAux_eq_dedupSeen lines ∅,
      Independent.dedupSeen_empty_eq_firstSeenDedup]
  refine ⟨heq, ?_, ?_⟩
  · rw [heq]; exact Independent.nodup_firstSeenDedup _
  · intro u
    rw [heq]
    exact Independent.mem_firstSeenDedup _ u

namespace Independent

/-- The conditional append in update_urls_file is redundant: the function
always equals the file followed by the sorted fresh URLs. -/
theorem update_urls_file_eq (new_urls fileLines : List String) :
    update_urls_file new_urls fileLines
      = fileLines ++ List.insertionSort urlLe
          ((new_urls.filter (· ∉ load_tracked_lines fileLines)).dedup) := by
  unfold update_urls_file
  by_cases h : (new_urls.filter (· ∉ load_tracked_lines fileLines)).dedup = []
  · rw [if_pos h, h]
    simp [List.insertionSort]
  · rw [if_neg h]

theorem mem_update_suffix (new_urls fileLines : List String) (u : String) :
    u ∈ List.insertionSort urlLe
        ((new_urls.filter (· ∉ load_tracked_lines fileLines)).dedup)
      ↔ u ∈ new_urls ∧ u ∉ load_tracked_lines fileLines := by
  rw [List.mem_insertionSort, List.mem_dedup, List.mem_filter]
  simp

theorem sorted_update_suffix (new_urls fileLines : List String) :
    List.Sorted urlLe (List.insertionSort urlLe
      ((new_urls.filter (· ∉ load_tracked_lines fileLines)).dedup)) :=
  List.sorted_insertionSort urlLe _

theorem nodup_update_suffix (new_urls fileLines : List String) :
    (List.insertionSort urlLe
      ((new_urls.filter (· ∉ load_tracked_lines fileLines)).dedup)).Nodup :=
  (List.perm_insertionSort urlLe _).nodup_iff.mpr (List.nodup_dedup _)

/-- update_urls_file is deterministic in the discovered set: any two
enumerations of the same set of discovered URLs produce the same file. -/
theorem update_urls_file_deterministic (new1 new2 fileLines : List String)
    (h : ∀ u, u ∈ new1 ↔ u ∈ new2) :
    update_urls_file new1 fileLines = update_urls_file new2 fileLines := by
  rw [update_urls_file_eq, update_urls_file_eq]
  congr 1
  apply List.eq_of_perm_of_sorted _ (List.sorted_insertionSort urlLe _)
    (List.sorted_insertionSort urlLe _)
  rw [List.perm_ext_iff_of_nodup (nodup_update_suffix new1 fileLines)
    (nodup_update_suffix new2 fileLines)]
  intro a
  rw [mem_update_suffix, mem_update_suffix, h a]

end Independent

namespace WikiHow

theorem mem_foldl_addLink (tracked seen : Finset String) :
    ∀ (ds acc : List String) (x : String),
      x ∈ ds.foldl (addLink tracked seen) acc
        ↔ x ∈ acc ∨ (x ∈ ds ∧ x ∉ tracked ∧ x ∉ seen) := by
  intro ds
  induction ds with
  | nil => intro acc x; simp
  | cons d rest ih =>
    intro acc x
    rw [List.foldl_cons, ih (addLink tracked seen acc d) x]
    unfold addLink
    by_cases hc : d ∉ tracked ∧ d ∉ seen ∧ d ∉ acc
    · rw [if_pos hc]
      obtain ⟨hc1, hc2, _⟩ := hc
      simp only [List.mem_append, List.mem_cons, List.not_mem_nil, or_false]
      constructor
      · rintro ((h | rfl) | h)
        · exact Or.inl h
        · exact Or.inr ⟨Or.inl rfl, hc1, hc2⟩
        · exact Or.inr ⟨Or.inr h.1, h.2⟩
      · rintro (h | ⟨rfl | h, h2, h3⟩)
        · exact Or.inl (Or.inl h)
        · exact Or.inl (Or.inr rfl)
        · exact Or.inr ⟨h, h2, h3⟩
    · rw [if_neg hc]
      push_neg at hc
      simp only [List.mem_cons]
      constructor
      · rintro (h | h)
        · exact Or.inl h
        · exact Or.inr ⟨Or.inr h.1, h.2⟩
      · rintro (h | ⟨rfl | h, h2, h3⟩)
        · exact Or.inl h
        · exact Or.inl (hc h2 h3)
        · exact Or.inr ⟨h, h2, h3⟩

/-- Membership in the discovered new_links accumulator: a link is kept
exactly when some batch URL discovered it and it is neither tracked nor
seen. -/
theorem mem_newLinks (disc : String → List String) (tracked seen : Finset String) :
    ∀ (batch : List String) (x : String),
      x ∈ newLinks disc batch tracked seen
        ↔ (∃ u ∈ batch, x ∈ disc u) ∧ x ∉ tracked ∧ x ∉ seen := by
  have haux : ∀ (batch : List String) (acc : List String) (x : String),
      x ∈ batch.foldl (fun acc u => (disc u).foldl (addLink tracked seen) acc) acc
        ↔ x ∈ acc ∨ ((∃ u ∈ batch, x ∈ disc u) ∧ x ∉ tracked ∧ x ∉ seen) := by
    intro batch
    induction batch with
    | nil => intro acc x; simp
    | cons u rest ih =>
      intro acc x
      rw [List.foldl_cons, ih _ x, mem_foldl_addLink tracked seen (disc u) acc x]
      constructor
      · rintro ((h | h) | h)
        · exact Or.inl h
        · exact Or.inr ⟨⟨u, by simp, h.1⟩, h.2⟩
        · rcases h.1 with ⟨v, hv, hxv⟩
          exact Or.inr ⟨⟨v, by simp [hv], hxv⟩, h.2⟩
      · rintro (h | ⟨⟨v, hv, hxv⟩, h2, h3⟩)
        · exact Or.inl (Or.inl h)
        · rcases List.mem_cons.mp hv with rfl | hv
          · exact Or.inl (Or.inr ⟨hxv, h2, h3⟩)
          · exact Or.inr ⟨⟨v, hv, hxv⟩, h2, h3⟩
  intro batch x
  unfold newLinks
  rw [haux batch [] x]
  simp

end WikiHow

/-! ## Claim C6 -/

/-- Claim C6, confirmed.  Enqueuing discovered URLs inserts only the URLs
not already present: in independent.py, update_urls_file appends exactly
the discovered URLs missing from the URL file (which carries every
pending, completed and failed candidate), appended in sorted order without
duplicates, and the result is independent of the enumeration order of the
discovered set; in wiki-how.py a discovered link enters new_links (and
hence the sorted queue extension) exactly when it is neither tracked nor
seen, so a link already completed is never re-added.  With discovered
links {X, Y}, X already tracked and Y novel, only Y is added. -/
theorem claim_C6 (new1 new2 fileLines : List String)
    (disc : String → List String) (tracked seen : Finset String)
    (batch : List String) (x : String)
    (hperm : ∀ u, u ∈ new1 ↔ u ∈ new2) (hx : x ∈ tracked) :
    Independent.update_urls_file new1 fileLines
      = fileLines ++ List.insertionSort urlLe
          ((new1.filter (· ∉ Independent.load_tracked_lines fileLines)).dedup)
    ∧ (∀ u, u ∈ List.insertionSort urlLe
          ((new1.filter (· ∉ Independent.load_tracked_lines fileLines)).dedup)
        ↔ u ∈ new1 ∧ u ∉ Independent.load_tracked_lines fileLines)
    ∧ List.Sorted urlLe (List.insertionSort urlLe
        ((new1.filter (· ∉ Independent.load_tracked_lines fileLines)).dedup))
    ∧ (List.insertionSort urlLe
        ((new1.filter (· ∉ Independent.load_tracked_lines fileLines)).dedup)).Nodup
    ∧ Independent.update_urls_file new1 fileLines
        = Independent.update_urls_file new2 fileLines
    ∧ (∀ y, y ∈ WikiHow.newLinks disc batch tracked seen
        ↔ (∃ u ∈ batch, y ∈ disc u) ∧ y ∉ tracked ∧ y ∉ seen)
    ∧ x ∉ List.insertionSort urlLe (WikiHow.newLinks disc batch tracked seen)
    ∧ WikiHow.newLinks (fun _ => ["X", "Y"]) ["u"] {"X"} ∅ = ["Y"] :=
  ⟨Independent.update_urls_file_eq new1 fileLines,
   fun u => Independent.mem_update_suffix new1 fileLines u,
   Independent.sorted_update_suffix new1 fileLines,
   Independent.nodup_update_suffix new1 fileLines,
   Independent.update_urls_file_deterministic new1 new2 fileLines hperm,
   fun y => WikiHow.mem_newLinks disc tracked seen batch y,
   fun hmem => by
     have h := (WikiHow.mem_newLinks disc tracked seen batch x).mp
       ((List.mem_insertionSort urlLe).mp hmem)
     exact h.2.1 hx,
   by decide⟩

/-- Claim C6, witness: the claim applied with discovered set {X, Y} (in
two enumeration orders), X already tracked, Y novel. -/
theorem claim_C6_witness :
    Independent.update_urls_file ["Y", "X"] ["X"]
      = ["X"] ++ List.insertionSort urlLe
          ((["Y", "X"].filter (· ∉ Independent.load_tracked_lines ["X"])).dedup)
    ∧ (∀ u, u ∈ List.insertionSort urlLe
          ((["Y", "X"].filter (· ∉ Independent.load_tracked_lines ["X"])).dedup)
        ↔ u ∈ ["Y", "X"] ∧ u ∉ Independent.load_tracked_lines ["X"])
    ∧ List.Sorted urlLe (List.insertionSort urlLe
        ((["Y", "X"].filter (· ∉ Independent.load_tracked_lines ["X"])).dedup))
    ∧ (List.insertionSort urlLe
        ((["Y", "X"].filter (· ∉ Independent.load_tracked_lines ["X"])).dedup)).Nodup
    ∧ Independent.update_urls_file ["Y", "X"] ["X"]
        = Independent.update_urls_file ["X", "Y", "X"] ["X"]
    ∧ (∀ y, y ∈ WikiHow.newLinks (fun _ => ["X", "Y"]) ["u"] {"X"} ∅
        ↔ (∃ u ∈ ["u"], y ∈ (fun _ => ["X", "Y"]) u) ∧ y ∉ ({"X"} : Finset String)
            ∧ y ∉ (∅ : Finset String))
    ∧ "X" ∉ List.insertionSort urlLe
        (WikiHow.newLinks (fun _ => ["X", "Y"]) ["u"] {"X"} ∅)
    ∧ WikiHow.newLinks (fun _ => ["X", "Y"]) ["u"] {"X"} ∅ = ["Y"] :=
  claim_C6 ["Y", "X"] ["X", "Y", "X"] ["X"] (fun _ => ["X", "Y"]) {"X"} ∅ ["u"] "X"
    (by intro u; simp only [List.mem_cons, List.not_mem_nil, or_false]; tauto) (by decide)

namespace BBC

/-- Whatever follows the first interrupt event is never processed: the
batch loop stops at the interrupt. -/
theorem run_batches_stops (post : List BatchEvent) :
    ∀ (pre : List BatchEvent) (succ fail : ℕ),
      run_batches (pre ++ .interrupted :: post) succ fail
        = run_batches (pre ++ [.interrupted]) succ fail := by
  intro pre
  induction pre with
  | nil => intro succ fail; simp [run_batches]
  | cons e rest ih =>
    intro succ fail
    cases e with
    | ok s f => simpa [run_batches] using ih (succ + s) (fail + f)
    | interrupted => simp [run_batches]
    | errored => simp [run_batches]

theorem run_batches_interrupt (post : List BatchEvent) :
    ∀ (pre : List BatchEvent), (∀ e ∈ pre, ∃ a b, e = BatchEvent.ok a b) →
      ∀ (succ fail : ℕ),
        (run_batches (pre ++ .interrupted :: post) succ fail).1 = "interrupted" := by
  intro pre
  induction pre with
  | nil => intro _ succ fail; simp [run_batches]
  | cons e rest ih =>
    intro hpre succ fail
    obtain ⟨a, b, rfl⟩ := hpre e (by simp)
    simpa [run_batches] using ih (fun e2 he2 => hpre e2 (by simp [he2])) (succ + a) (fail + b)

end BBC

/-! ## Claim C7 -/

/-- Claim C7, confirmed.  Both checkpoint writers of bbc-articles.py
treat a corrupted or missing checkpoint file exactly like a freshly
reinitialized default record and always produce a valid checkpoint file:
a corrupt or missing checkpoint never aborts the update or the
finalization. -/
theorem claim_C7 (now : ℕ) (cu fu : Option String) (status : String) :
    BBC.update_progress .corrupt now cu fu
      = BBC.update_progress (.valid (BBC.initialize_progress_file now)) now cu fu
    ∧ BBC.update_progress .missing now cu fu
      = BBC.update_progress (.valid (BBC.initialize_progress_file now)) now cu fu
    ∧ (∀ file : BBC.CheckpointFile, ∃ p, BBC.update_progress file now cu fu = .valid p)
    ∧ BBC.finalize_progress .corrupt now status
      = BBC.finalize_progress (.valid (BBC.initialize_progress_file now)) now status
    ∧ BBC.finalize_progress .missing now status
      = BBC.finalize_progress (.valid (BBC.initialize_progress_file now)) now status
    ∧ (∀ file : BBC.CheckpointFile, ∃ p, BBC.finalize_progress file now status = .valid p) :=
  ⟨rfl, rfl, fun file => by cases file <;> exact ⟨_, rfl⟩,
   rfl, rfl, fun file => by cases file <;> exact ⟨_, rfl⟩⟩

/-! ## Claim C8 -/

/-- Claim C8, confirmed.  When a KeyboardInterrupt arrives during batch
processing (after a prefix of completed batches), run_scraper finalizes
the checkpoint exactly once, with status interrupted, never processes the
remaining batches, and the finalized record carries the derived
statistics: success rate, total processed, and runtime.  Batches are
atomic in this model, matching the executor shutdown that lets in-flight
workers finish before the exception propagates. -/
theorem claim_C8 (pre post : List BBC.BatchEvent) (urls : List String)
    (file : BBC.CheckpointFile) (now : ℕ) (hurls : urls ≠ [])
    (hpre : ∀ e ∈ pre, ∃ a b, e = BBC.BatchEvent.ok a b) :
    (BBC.run_scraper urls (pre ++ .interrupted :: post) file now).finalized
      = ["interrupted"]
    ∧ (BBC.run_scraper urls (pre ++ .interrupted :: post) file now).finalized.length = 1
    ∧ BBC.run_scraper urls (pre ++ .interrupted :: post) file now
        = BBC.run_scraper urls (pre ++ [.interrupted]) file now
    ∧ ∃ p, (BBC.run_scraper urls (pre ++ .interrupted :: post) file now).checkpoint
          = .valid p
        ∧ p.status = "interrupted"
        ∧ p.ended_at = some now
        ∧ ∃ st, p.statistics = some st
            ∧ st.total_processed = p.completed_articles + p.failed_articles
            ∧ st.success_rate
                = BBC.successRate p.completed_articles
                    (p.completed_articles + p.failed_articles)
            ∧ st.runtime_seconds = (now : ℤ) - (p.started_at : ℤ) := by
  have hst := BBC.run_batches_interrupt post pre hpre 0 0
  have hstop := BBC.run_batches_stops post pre 0 0
  refine ⟨?_, ?_, ?_, ?_⟩
  · simp [BBC.run_scraper, hurls, hst]
  · simp [BBC.run_scraper, hurls, hst]
  · simp [BBC.run_scraper, hurls, hstop]
  · simp only [BBC.run_scraper, hurls, if_false, hst]
    unfold BBC.finalize_progress
    cases file with
    | missing => exact ⟨_, rfl, rfl, rfl, _, rfl, rfl, rfl, rfl⟩
    | corrupt => exact ⟨_, rfl, rfl, rfl, _, rfl, rfl, rfl, rfl⟩
    | valid p => exact ⟨_, rfl, rfl, rfl, _, rfl, rfl, rfl, rfl⟩

/-- Claim C8, witness: one completed batch, then an interrupt, then an
unprocessed batch. -/
theorem claim_C8_witness :
    (BBC.run_scraper ["u"] ([.ok 2 1] ++ .interrupted :: [.ok 5 5]) .corrupt 10).finalized
      = ["interrupted"]
    ∧ (BBC.run_scraper ["u"] ([.ok 2 1] ++ .interrupted :: [.ok 5 5]) .corrupt 10).finalized.length = 1
    ∧ BBC.run_scraper ["u"] ([.ok 2 1] ++ .interrupted :: [.ok 5 5]) .corrupt 10
        = BBC.run_scraper ["u"] ([.ok 2 1] ++ [.interrupted]) .corrupt 10
    ∧ ∃ p, (BBC.run_scraper ["u"] ([.ok 2 1] ++ .interrupted :: [.ok 5 5]) .corrupt 10).checkpoint
          = .valid p
        ∧ p.status = "interrupted"
        ∧ p.ended_at = some 10
        ∧ ∃ st, p.statistics = some st
            ∧ st.total_processed = p.completed_articles + p.failed_articles
            ∧ st.success_rate
                = BBC.successRate p.completed_articles
                    (p.completed_articles + p.failed_articles)
            ∧ st.runtime_seconds = (10 : ℤ) - (p.started_at : ℤ) :=
  claim_C8 [.ok 2 1] [.ok 5 5] ["u"] .corrupt 10 (by decide)
    (by intro e he; simp only [List.mem_singleton] at he; exact ⟨2, 1, he⟩)

/-! ## Claim C10 -/

/-- Claim C10, confirmed.  Both load_tracked_urls loaders are total and
map every read error (missing file or any other failure) to the empty
set, so a damaged or absent tracker file silently restarts tracking from
scratch instead of failing the run; a successful read yields the set of
stripped non-blank lines. -/
theorem claim_C10 (e : Independent.ReadError) (e2 : Rekhta.RekReadError)
    (lines : List String) :
    Independent.load_tracked_urls (.error e) = ∅
    ∧ Rekhta.load_tracked_urls (.error e2) = ∅
    ∧ Independent.load_tracked_urls (.ok lines) = Independent.load_tracked_lines lines
    ∧ Rekhta.load_tracked_urls (.ok lines)
        = ((lines.map pyStrip).filter (· ≠ "")).toFinset :=
  ⟨rfl, rfl, rfl, rfl⟩
